import Mathlib

/-!
Shallow embedding of `src/lambda/scan_metadata.py` (`lambda_handler`).

The handler receives a batch of SQS records (`event['Records']`), unwraps each
record through two JSON layers (SQS body -> SNS message -> S3 event records),
and for each S3 event fetches object metadata (`head_object`, with a fallback
on failure), builds a result record and writes it to the destination bucket
(`put_object`).  Per-record failures are caught by the outer `try`/`except`
and counted in `failed_count`; successful writes are counted in
`processed_count`.  The handler returns `statusCode 200` with the two counts.

External library calls (`json.loads`, `head_object`, `put_object`,
`datetime.utcnow`) are modelled as oracles packaged in an `Env`; the current
time is a stream `clock : Nat -> DateTime` consumed one tick per `utcnow()`
call.  `json.dumps` is abstracted: the output body handed to the `put_object`
oracle is the structured record value itself (serialization is injective, so
the oracle loses no information).  The state `S` additionally carries traces
of attempted `head_object` and `put_object` calls; these traces are pure
instrumentation and influence nothing.
-/

namespace ScanMeta

/-- Python/JSON values, as produced by `json.loads` and consumed by
dictionary subscripts in the handler. -/
inductive Json where
  | null
  | bool (b : Bool)
  | num (n : Int)
  | str (s : String)
  | arr (elems : List Json)
  | obj (fields : List (String × Json))

/-- Exceptions raised by library calls and dictionary subscripts; the handler
never inspects the exception beyond logging it, so the payload is dropped. -/
inductive Err where
  | keyErr
  | typeErr
  | valueErr
  | clientErr
deriving DecidableEq

/-- Python dictionary subscript `d[k]`: `KeyError` when the key is absent,
`TypeError` when the value is not a dictionary. -/
def Json.getField : Json → String → Except Err Json
  | .obj kvs, k =>
    match kvs.lookup k with
    | some v => .ok v
    | none => .error Err.keyErr
  | _, _ => .error Err.typeErr

/-- A broken-down UTC instant, as returned by `datetime.utcnow()`. -/
structure DateTime where
  year : Nat
  month : Nat
  day : Nat
  hour : Nat
  minute : Nat
  second : Nat
  microsecond : Nat
deriving DecidableEq

/-- Zero-pad the decimal representation of `n` to width `w` (Python's
`%04d`-style formatting used by `strftime`/`isoformat`). -/
def pad (w : Nat) (n : Nat) : String :=
  let s := toString n
  String.mk (List.replicate (w - s.length) '0') ++ s

/-- Model of `datetime.isoformat()`: `YYYY-MM-DDTHH:MM:SS[.ffffff]`, the fractional
part omitted when `microsecond = 0`. -/
def DateTime.isoformat (dt : DateTime) : String :=
  pad 4 dt.year ++ "-" ++ pad 2 dt.month ++ "-" ++ pad 2 dt.day ++ "T" ++
  pad 2 dt.hour ++ ":" ++ pad 2 dt.minute ++ ":" ++ pad 2 dt.second ++
  (if dt.microsecond = 0 then "" else "." ++ pad 6 dt.microsecond)

/-- Model of `datetime.strftime('%Y%m%d-%H%M%S-%f')`, the format used for the output
key (line 66 of the source). -/
def DateTime.strftimeKey (dt : DateTime) : String :=
  pad 4 dt.year ++ pad 2 dt.month ++ pad 2 dt.day ++ "-" ++
  pad 2 dt.hour ++ pad 2 dt.minute ++ pad 2 dt.second ++ "-" ++
  pad 6 dt.microsecond

/-- Hexadecimal digit value, for percent-decoding. -/
def hexVal (c : Char) : Option Nat :=
  if '0' ≤ c ∧ c ≤ '9' then some (c.toNat - '0'.toNat)
  else if 'a' ≤ c ∧ c ≤ 'f' then some (c.toNat - 'a'.toNat + 10)
  else if 'A' ≤ c ∧ c ≤ 'F' then some (c.toNat - 'A'.toNat + 10)
  else none

/-- Character-level model of `urllib.parse.unquote_plus`: `+` becomes a
space, `%XX` (two hex digits) becomes the character with that code, an
invalid escape is left as a literal `%`.  (Multi-byte UTF-8 percent
sequences are modelled code-unit by code-unit.) -/
def unquotePlusAux : List Char → List Char
  | [] => []
  | '+' :: rest => ' ' :: unquotePlusAux rest
  | '%' :: a :: b :: rest =>
    match hexVal a, hexVal b with
    | some x, some y => Char.ofNat (16 * x + y) :: unquotePlusAux rest
    | _, _ => '%' :: unquotePlusAux (a :: b :: rest)
  | c :: rest => c :: unquotePlusAux rest

/-- Model of `urllib.parse.unquote_plus` (line 32 of the source). -/
def unquote_plus (s : String) : String :=
  String.mk (unquotePlusAux s.data)

/-- Model of `object_key.replace('/', '_')` (line 67 of the source); a single-character
replace is a character map. -/
def underscoreSlashes (s : String) : String :=
  String.mk (s.data.map (fun c => if c = '/' then '_' else c))

/-- Response of a successful `head_object`: the `ContentType` field may be
absent (line 45 defaults it), `LastModified` may be absent (line 46). -/
structure HeadResp where
  contentType : Option String
  lastModified : Option DateTime

/-- The external world: configuration, the JSON parser, the two S3 calls and
the clock.  All are oracles fixed for one invocation. -/
structure Env where
  destinationBucket : Option String
  loads : String → Except Err Json
  headObject : String → String → Except Err HeadResp
  putObject : String → String → Json → String → Except Err Unit
  clock : Nat → DateTime

/-- Model of `json.loads` applied to a value taken out of a dictionary: raises
`TypeError` unless the argument is a string. -/
def jsonLoads (env : Env) (j : Json) : Except Err Json :=
  match j with
  | .str s => env.loads s
  | _ => .error Err.typeErr

/-- Model of `s3_client.head_object(Bucket=..., Key=...)` (lines 40-43): boto3
rejects a non-string bucket argument with a (caught) validation error. -/
def callHeadObject (env : Env) (bucket : Json) (key : String) :
    Except Err HeadResp :=
  match bucket with
  | .str b => env.headObject b key
  | _ => .error Err.typeErr

/-- Lines 45-51: content type and last-modified, either extracted from the
`head_object` response (with defaults for absent fields) or substituted
wholesale when the call raised. -/
def metadataOf (r : Except Err HeadResp) : String × String :=
  match r with
  | .ok resp =>
    (resp.contentType.getD "unknown",
     match resp.lastModified with
     | some dt => dt.isoformat
     | none => "")
  | .error _ => ("unknown", "")

/-- One attempted `put_object`, as recorded in the trace: destination bucket,
generated key, the (pre-serialization) result record, and the clock ticks at
which `processed_at` (line 61) and the key timestamp (line 66) were read. -/
structure PutCall where
  bucket : String
  key : String
  record : Json
  recTick : Nat
  genTick : Nat

/-- Mutable state of one invocation: the two counters, the clock position,
and the instrumentation traces of attempted calls. -/
structure S where
  processed : Nat
  failed : Nat
  tick : Nat
  headCalls : List (Json × String)
  putCalls : List PutCall

/-- Initial state (lines 17-18). -/
def S.init : S := ⟨0, 0, 0, [], []⟩

/-- The result dictionary (lines 54-63), in source field order. -/
def mkResult (source_bucket : Json) (object_key : String) (object_size : Json)
    (content_type : String) (event_time : Json)
    (last_modified processed_at : String) : Json :=
  .obj [("source_bucket", source_bucket),
        ("object_key", .str object_key),
        ("object_size", object_size),
        ("content_type", .str content_type),
        ("event_time", event_time),
        ("last_modified", .str last_modified),
        ("processed_at", .str processed_at),
        ("status", .str "processed")]

/-- The output key (line 67):
`f"processed/\x7btimestamp\x7d-\x7bobject_key.replace('/', '_')\x7d.json"`. -/
def mkResultKey (timestamp : String) (object_key : String) : String :=
  "processed/" ++ timestamp ++ "-" ++ underscoreSlashes object_key ++ ".json"

/-- Extraction `s3_record['s3']['bucket']['name']` (line 31). -/
def bucketNameOf (ev : Json) : Except Err Json :=
  ev.getField "s3" >>= (·.getField "bucket") >>= (·.getField "name")

/-- Extraction `s3_record['s3']['object']['key']` (line 32, before decoding). -/
def rawKeyOf (ev : Json) : Except Err Json :=
  ev.getField "s3" >>= (·.getField "object") >>= (·.getField "key")

/-- Extraction `s3_record['s3']['object']['size']` (line 33). -/
def objectSizeOf (ev : Json) : Except Err Json :=
  ev.getField "s3" >>= (·.getField "object") >>= (·.getField "size")

/-- Extraction `s3_record['eventTime']` (line 34). -/
def eventTimeOf (ev : Json) : Except Err Json :=
  ev.getField "eventTime"

/-- The result record built for one event at clock position `tick`
(lines 54-63): metadata from the (possibly failed) `head_object` response,
`processed_at` from `utcnow()` read at `tick`. -/
def coreRecord (env : Env) (source_bucket : Json) (rk : String)
    (object_size event_time : Json) (tick : Nat) : Json :=
  mkResult source_bucket (unquote_plus rk) object_size
    (metadataOf (callHeadObject env source_bucket (unquote_plus rk))).1
    event_time
    (metadataOf (callHeadObject env source_bucket (unquote_plus rk))).2
    (DateTime.isoformat (env.clock tick))

/-- The output key for one event whose record was built at clock position
`tick` (lines 66-67): a second `utcnow()` is read at `tick + 1`. -/
def coreKey (env : Env) (rk : String) (tick : Nat) : String :=
  mkResultKey (DateTime.strftimeKey (env.clock (tick + 1))) (unquote_plus rk)

/-- The state after the fetch attempt, record construction, key generation
and the `put_object` attempt for one event (counters not yet updated): two
clock ticks consumed, one entry appended to each trace. -/
def coreState (env : Env) (dest : String) (source_bucket : Json)
    (rk : String) (object_size event_time : Json) (s : S) : S :=
  { s with
    tick := s.tick + 2,
    headCalls := s.headCalls ++ [(source_bucket, unquote_plus rk)],
    putCalls := s.putCalls ++
      [⟨dest, coreKey env rk s.tick,
        coreRecord env source_bucket rk object_size event_time s.tick,
        s.tick, s.tick + 1⟩] }

/-- Lines 36-78 after field extraction: metadata fetch with fallback, result
record built with `utcnow()` (one tick), output key from a second `utcnow()`
(another tick), and the `put_object` attempt.  A `put_object` failure
propagates (to the per-record handler); success increments `processed`. -/
def processEventCore (env : Env) (dest : String) (source_bucket : Json)
    (rk : String) (object_size event_time : Json) (s : S) :
    S × Except Err Unit :=
  let s2 := coreState env dest source_bucket rk object_size event_time s
  match env.putObject dest (coreKey env rk s.tick)
      (coreRecord env source_bucket rk object_size event_time s.tick)
      "application/json" with
  | .ok _ => ({ s2 with processed := s2.processed + 1 }, .ok ())
  | .error e => (s2, .error e)

/-- Lines 29-78, one `s3_record`: field extraction in source order (any
failure raises to the per-record handler), then `processEventCore`. -/
def processS3Record (env : Env) (dest : String) (s3r : Json) (s : S) :
    S × Except Err Unit :=
  match bucketNameOf s3r with
  | .error e => (s, .error e)
  | .ok source_bucket =>
    match rawKeyOf s3r with
    | .error e => (s, .error e)
    | .ok (.str rk) =>
      match objectSizeOf s3r with
      | .error e => (s, .error e)
      | .ok object_size =>
        match eventTimeOf s3r with
        | .error e => (s, .error e)
        | .ok event_time =>
          processEventCore env dest source_bucket rk object_size event_time s
    | .ok _ => (s, .error Err.typeErr)

/-- The `for s3_record in sns_message['Records']` loop (line 29): events in
order; the first raised exception aborts the rest of the loop. -/
def runEvents (env : Env) (dest : String) :
    List Json → S → S × Except Err Unit
  | [], s => (s, .ok ())
  | ev :: rest, s =>
    match processS3Record env dest ev s with
    | (s1, .ok _) => runEvents env dest rest s1
    | (s1, .error e) => (s1, .error e)

/-- Lines 23-29: `json.loads(record['body'])`, then
`json.loads(message_body['Message'])`, then `sns_message['Records']`, which
must be a list to iterate. -/
def decodeRecord (env : Env) (record : Json) : Except Err (List Json) :=
  match record.getField "body" with
  | .error e => .error e
  | .ok bodyJ =>
    match jsonLoads env bodyJ with
    | .error e => .error e
    | .ok message_body =>
      match message_body.getField "Message" with
      | .error e => .error e
      | .ok msgJ =>
        match jsonLoads env msgJ with
        | .error e => .error e
        | .ok sns_message =>
          match sns_message.getField "Records" with
          | .error e => .error e
          | .ok (.arr evs) => .ok evs
          | .ok _ => .error Err.typeErr

/-- Lines 21-83, one SQS record inside its `try`/`except`: any exception
from decoding or from the event loop is caught and increments `failed`. -/
def processRecord (env : Env) (dest : String) (record : Json) (s : S) : S :=
  match decodeRecord env record with
  | .error _ => { s with failed := s.failed + 1 }
  | .ok evs =>
    match runEvents env dest evs s with
    | (s1, .ok _) => s1
    | (s1, .error _) => { s1 with failed := s1.failed + 1 }

/-- The `for record in event['Records']` loop (line 20) from the initial
state. -/
def runBatch (env : Env) (dest : String) (recs : List Json) : S :=
  recs.foldl (fun s r => processRecord env dest r s) S.init

/-- The handler's return value (lines 85-91); the body is the structured
value serialized by `json.dumps`. -/
structure LambdaResponse where
  statusCode : Nat
  body : Json

/-- The handler `lambda_handler` (lines 9-91): read the destination bucket from the
environment (`KeyError` when absent, line 15), iterate `event['Records']`
(which must be a list), return 200 with the counts. -/
def lambda_handler (env : Env) (event : Json) : Except Err LambdaResponse :=
  match env.destinationBucket with
  | none => .error Err.keyErr
  | some dest =>
    match event.getField "Records" with
    | .error e => .error e
    | .ok (.arr records) =>
      let final := runBatch env dest records
      .ok ⟨200, .obj [("processed", .num final.processed),
                      ("failed", .num final.failed)]⟩
    | .ok _ => .error Err.typeErr

/-- A storage event is well-formed when all four field extractions of
lines 31-34 succeed and the raw key is a string. -/
def eventWF (ev : Json) : Bool :=
  match bucketNameOf ev, rawKeyOf ev, objectSizeOf ev, eventTimeOf ev with
  | .ok _, .ok (.str _), .ok _, .ok _ => true
  | _, _, _, _ => false

/-- A batch is well-formed when every SQS record decodes to a list of
well-formed storage events. -/
def BatchWF (env : Env) (recs : List Json) : Prop :=
  ∀ r ∈ recs, ∃ evs, decodeRecord env r = .ok evs ∧
    ∀ ev ∈ evs, eventWF ev = true

/-- Number of storage events extracted from one SQS record (0 when it does
not decode). -/
def decodeLen (env : Env) (r : Json) : Nat :=
  match decodeRecord env r with
  | .ok evs => evs.length
  | .error _ => 0

/-- Total number of storage events extracted across the batch. -/
def totalEvents (env : Env) (recs : List Json) : Nat :=
  (recs.map (decodeLen env)).sum

/-- What is true of every write attempt the handler makes: the destination
bucket is the configured one, the key timestamp comes from the clock read
one tick after the one used for `processed_at`, and the key embeds the
decoded object key stored in the record. -/
def PCoh (env : Env) (dest : String) (pc : PutCall) : Prop :=
  pc.bucket = dest ∧ pc.genTick = pc.recTick + 1 ∧
  ∃ dk, pc.key = mkResultKey (DateTime.strftimeKey (env.clock pc.genTick)) dk ∧
    pc.record.getField "object_key" = .ok (.str dk) ∧
    pc.record.getField "processed_at" =
      .ok (.str (DateTime.isoformat (env.clock pc.recTick)))

/-- Invariant carried through the run: all recorded write attempts are
coherent, their key-generation ticks are below the current clock position
and strictly increase along the trace. -/
def PutInv (env : Env) (dest : String) (s : S) : Prop :=
  (∀ pc ∈ s.putCalls, PCoh env dest pc ∧ pc.genTick < s.tick) ∧
  s.putCalls.Pairwise (fun a b => a.genTick < b.genTick)

/-! ### Concrete fixtures used in witnesses and counterexamples -/

/-- A well-formed S3 event record with the given (still encoded) object
key. -/
def sampleEvent (key : String) : Json :=
  .obj [("s3", .obj [("bucket", .obj [("name", .str "srcbkt")]),
                     ("object", .obj [("key", .str key),
                                      ("size", .num 1024)])]),
        ("eventTime", .str "2024-01-01T00:00:00Z")]

/-- An SQS record whose body is the (opaque) text `B`. -/
def sampleSqsRecord : Json := .obj [("body", .str "B")]

/-- A parser oracle under which body `B` wraps message `M`, which wraps the
given list of S3 events; everything else is a parse error. -/
def sampleLoads (evs : List Json) : String → Except Err Json := fun s =>
  if s = "B" then .ok (.obj [("Message", .str "M")])
  else if s = "M" then .ok (.obj [("Records", .arr evs)])
  else .error Err.valueErr

/-- A clock advancing one microsecond per reading. -/
def tickClock : Nat → DateTime := fun t => ⟨2024, 1, 1, 0, 0, 0, t⟩

/-- A clock frozen at one instant (two readings within the same
microsecond). -/
def constClock : Nat → DateTime := fun _ => ⟨2024, 1, 1, 0, 0, 0, 0⟩

/-- Environment with the advancing clock, failing metadata lookups and
successful writes. -/
def envPutOk (evs : List Json) : Env :=
  { destinationBucket := some "dest", loads := sampleLoads evs,
    headObject := fun _ _ => .error Err.clientErr,
    putObject := fun _ _ _ _ => .ok (), clock := tickClock }

/-- Same, but every write fails. -/
def envPutFail (evs : List Json) : Env :=
  { envPutOk evs with putObject := fun _ _ _ _ => .error Err.clientErr }

/-- Same as `envPutOk`, but with the frozen clock. -/
def envConstClock (evs : List Json) : Env :=
  { envPutOk evs with clock := constClock }

/-- Same as `envPutOk`, but the write of the second event of
`[sampleEvent "a", sampleEvent "b"]` (whose key timestamp is read at tick 3)
fails. -/
def envFailSecond (evs : List Json) : Env :=
  { envPutOk evs with putObject := fun _ k _ _ =>
      if k = "processed/20240101-000000-000003-b.json" then Except.error Err.clientErr else Except.ok () }

/-- Environment whose parser rejects every body. -/
def envBadJson : Env :=
  { envPutOk [] with loads := fun _ => .error Err.valueErr }

/-! ### Helper lemmas -/

theorem stringExt {s t : String} (h : s.data = t.data) : s = t := by
  cases s; cases t; cases h; rfl

/-- Destructure a well-formed event into its four extracted fields. -/
theorem eventWF_fields {ev : Json} (h : eventWF ev = true) :
    ∃ bj rk oz et, bucketNameOf ev = .ok bj ∧ rawKeyOf ev = .ok (.str rk) ∧
      objectSizeOf ev = .ok oz ∧ eventTimeOf ev = .ok et := by
  unfold eventWF at h
  split at h
  · rename_i bj rk oz et h1 h2 h3 h4
    exact ⟨bj, rk, oz, et, h1, h2, h3, h4⟩
  · cases h

/-- On a well-formed event, `processS3Record` runs the post-extraction
core. -/
theorem processS3Record_eq_core {ev : Json} {bj : Json} {rk : String}
    {oz et : Json} (env : Env) (dest : String) (s : S)
    (h1 : bucketNameOf ev = .ok bj) (h2 : rawKeyOf ev = .ok (.str rk))
    (h3 : objectSizeOf ev = .ok oz) (h4 : eventTimeOf ev = .ok et) :
    processS3Record env dest ev s = processEventCore env dest bj rk oz et s := by
  unfold processS3Record
  rw [h1, h2, h3, h4]

/-- The two possible outcomes of the post-extraction core. -/
theorem processEventCore_cases (env : Env) (dest : String)
    (source_bucket : Json) (rk : String) (object_size event_time : Json)
    (s : S) :
    (processEventCore env dest source_bucket rk object_size event_time s =
      ({ coreState env dest source_bucket rk object_size event_time s with
          processed := s.processed + 1 }, .ok ()) ∧
      env.putObject dest (coreKey env rk s.tick)
        (coreRecord env source_bucket rk object_size event_time s.tick)
        "application/json" = .ok ()) ∨
    (∃ e, processEventCore env dest source_bucket rk object_size event_time s =
      (coreState env dest source_bucket rk object_size event_time s,
       .error e) ∧
      env.putObject dest (coreKey env rk s.tick)
        (coreRecord env source_bucket rk object_size event_time s.tick)
        "application/json" = .error e) := by
  unfold processEventCore
  cases hp : env.putObject dest (coreKey env rk s.tick)
      (coreRecord env source_bucket rk object_size event_time s.tick)
      "application/json" with
  | ok u => exact Or.inl ⟨rfl, rfl⟩
  | error e => exact Or.inr ⟨e, rfl, rfl⟩

theorem coreState_processed (env : Env) (dest : String) (bj : Json)
    (rk : String) (oz et : Json) (s : S) :
    (coreState env dest bj rk oz et s).processed = s.processed := rfl

theorem coreState_failed (env : Env) (dest : String) (bj : Json)
    (rk : String) (oz et : Json) (s : S) :
    (coreState env dest bj rk oz et s).failed = s.failed := rfl

theorem coreState_tick (env : Env) (dest : String) (bj : Json)
    (rk : String) (oz et : Json) (s : S) :
    (coreState env dest bj rk oz et s).tick = s.tick + 2 := rfl

theorem coreState_headCalls (env : Env) (dest : String) (bj : Json)
    (rk : String) (oz et : Json) (s : S) :
    (coreState env dest bj rk oz et s).headCalls =
      s.headCalls ++ [(bj, unquote_plus rk)] := rfl

theorem coreState_putCalls (env : Env) (dest : String) (bj : Json)
    (rk : String) (oz et : Json) (s : S) :
    (coreState env dest bj rk oz et s).putCalls =
      s.putCalls ++
        [⟨dest, coreKey env rk s.tick, coreRecord env bj rk oz et s.tick,
          s.tick, s.tick + 1⟩] := rfl

/-- A successfully processed event increments `processed` by one, appends one
fetch attempt and one write attempt, consumes two clock ticks and leaves
`failed` unchanged.  (Holds without any well-formedness hypothesis: every
early exit of `processS3Record` returns an error.) -/
theorem processS3Record_ok {env : Env} {dest : String} {ev : Json} {s s1 : S}
    {u : Unit} (h : processS3Record env dest ev s = (s1, .ok u)) :
    s1.processed = s.processed + 1 ∧ s1.failed = s.failed ∧
      s1.headCalls.length = s.headCalls.length + 1 ∧
      s1.putCalls.length = s.putCalls.length + 1 ∧ s1.tick = s.tick + 2 := by
  unfold processS3Record at h
  split at h
  · cases h
  · rename_i bj h1
    split at h
    · cases h
    · rename_i rk h2
      split at h
      · cases h
      · rename_i oz h3
        split at h
        · cases h
        · rename_i et h4
          rcases processEventCore_cases env dest bj rk oz et s with
            ⟨hc, _⟩ | ⟨e, hc, _⟩
          · rw [hc] at h
            cases h
            refine ⟨rfl, rfl, ?_, ?_, rfl⟩
            · simp [coreState]
            · simp [coreState]
          · rw [hc] at h
            cases h
    · cases h

/-- A failed event leaves `processed` and `failed` unchanged, appends at most
one fetch and one write attempt, and never rolls the clock back. -/
theorem processS3Record_error {env : Env} {dest : String} {ev : Json}
    {s s1 : S} {e : Err}
    (h : processS3Record env dest ev s = (s1, .error e)) :
    s1.processed = s.processed ∧ s1.failed = s.failed ∧
      s1.putCalls.length ≤ s.putCalls.length + 1 ∧
      s.tick ≤ s1.tick := by
  unfold processS3Record at h
  split at h
  · cases h; exact ⟨rfl, rfl, Nat.le_add_right _ _, Nat.le_refl _⟩
  · rename_i bj h1
    split at h
    · cases h; exact ⟨rfl, rfl, Nat.le_add_right _ _, Nat.le_refl _⟩
    · rename_i rk h2
      split at h
      · cases h; exact ⟨rfl, rfl, Nat.le_add_right _ _, Nat.le_refl _⟩
      · rename_i oz h3
        split at h
        · cases h; exact ⟨rfl, rfl, Nat.le_add_right _ _, Nat.le_refl _⟩
        · rename_i et h4
          rcases processEventCore_cases env dest bj rk oz et s with
            ⟨hc, _⟩ | ⟨e', hc, _⟩
          · rw [hc] at h; cases h
          · rw [hc] at h
            cases h
            refine ⟨rfl, rfl, ?_, ?_⟩
            · simp [coreState]
            · simp [coreState]
    · cases h; exact ⟨rfl, rfl, Nat.le_add_right _ _, Nat.le_refl _⟩

/-- The event loop distributes over list append: the second half runs only
when the first half raised nothing. -/
theorem runEvents_append (env : Env) (dest : String) (l1 l2 : List Json)
    (s : S) :
    runEvents env dest (l1 ++ l2) s =
      match runEvents env dest l1 s with
      | (s1, .ok _) => runEvents env dest l2 s1
      | (s1, .error e) => (s1, .error e) := by
  induction l1 generalizing s with
  | nil => rfl
  | cons ev rest ih =>
    have hl : runEvents env dest (ev :: rest ++ l2) s =
        match processS3Record env dest ev s with
        | (s1, .ok _) => runEvents env dest (rest ++ l2) s1
        | (s1, .error e) => (s1, .error e) := rfl
    have hr : runEvents env dest (ev :: rest) s =
        match processS3Record env dest ev s with
        | (s1, .ok _) => runEvents env dest rest s1
        | (s1, .error e) => (s1, .error e) := rfl
    rw [hl, hr]
    cases hp : processS3Record env dest ev s with
    | mk s1 r =>
      cases r with
      | ok u => exact ih s1
      | error e => rfl

/-- A fully successful event loop: one `processed`, one fetch attempt and one
write attempt per event, `failed` untouched. -/
theorem runEvents_ok {env : Env} {dest : String} {evs : List Json} {s s1 : S}
    {u : Unit} (h : runEvents env dest evs s = (s1, .ok u)) :
    s1.processed = s.processed + evs.length ∧ s1.failed = s.failed ∧
      s1.headCalls.length = s.headCalls.length + evs.length ∧
      s1.putCalls.length = s.putCalls.length + evs.length := by
  induction evs generalizing s with
  | nil => cases h; exact ⟨rfl, rfl, rfl, rfl⟩
  | cons ev rest ih =>
    unfold runEvents at h
    split at h
    · rename_i s2 u2 hp
      obtain ⟨e1, e2, e3, e4⟩ := processS3Record_ok hp
      obtain ⟨f1, f2, f3, f4⟩ := ih h
      refine ⟨?_, by rw [f2, e2], ?_, ?_⟩ <;> simp only [List.length_cons] <;> omega
    · cases h

/-- The event loop never touches `failed`: failures are counted only at the
envelope level. -/
theorem runEvents_failed (env : Env) (dest : String) (evs : List Json)
    (s : S) : (runEvents env dest evs s).1.failed = s.failed := by
  induction evs generalizing s with
  | nil => rfl
  | cons ev rest ih =>
    unfold runEvents
    cases hp : processS3Record env dest ev s with
    | mk s1 r =>
      cases r with
      | ok u =>
        have := processS3Record_ok hp
        simpa [this.2.1] using ih s1
      | error e => exact (processS3Record_error hp).2.1

/-- Count accounting for the event loop over well-formed events: writes
attempted equal events reached; a raised exception accounts for exactly one
attempted-but-failed write. -/
theorem runEvents_wf_counts {env : Env} {dest : String} {evs : List Json}
    {s s1 : S} {r : Except Err Unit}
    (hwf : ∀ ev ∈ evs, eventWF ev = true)
    (h : runEvents env dest evs s = (s1, r)) :
    s1.failed = s.failed ∧
      s1.putCalls.length ≤ s.putCalls.length + evs.length ∧
      (∀ u, r = .ok u →
        s1.processed + s.putCalls.length =
          s.processed + s1.putCalls.length) ∧
      (∀ e, r = .error e →
        s1.processed + 1 + s.putCalls.length =
          s.processed + s1.putCalls.length) := by
  induction evs generalizing s with
  | nil =>
    cases h
    exact ⟨rfl, Nat.le_add_right _ _,
      fun u _ => rfl, fun e he => by cases he⟩
  | cons ev rest ih =>
    obtain ⟨bj, rk, oz, et, h1, h2, h3, h4⟩ :=
      eventWF_fields (hwf ev (List.mem_cons_self ev rest))
    have hrest : ∀ e ∈ rest, eventWF e = true :=
      fun e he => hwf e (List.mem_cons_of_mem ev he)
    unfold runEvents at h
    rw [processS3Record_eq_core env dest s h1 h2 h3 h4] at h
    rcases processEventCore_cases env dest bj rk oz et s with
      ⟨hc, _⟩ | ⟨e', hc, _⟩
    · rw [hc] at h
      obtain ⟨f1, f2, f3, f4⟩ := ih hrest h
      simp only [coreState_failed, coreState_processed, coreState_putCalls,
        List.length_append, List.length_cons, List.length_nil] at f1 f2 f3 f4
      refine ⟨f1, by simpa using Nat.le_trans f2 (by omega), ?_, ?_⟩
      · intro u hu
        have := f3 u hu
        omega
      · intro e he
        have := f4 e he
        omega
    · rw [hc] at h
      cases h
      refine ⟨coreState_failed .., ?_, ?_, ?_⟩
      · simp [coreState_putCalls]
      · intro u hu; cases hu
      · intro e he
        simp [coreState_putCalls, coreState_processed]
        omega

/-- Each SQS record increments `failed` by at most one, whatever happens
inside it. -/
theorem processRecord_failed_le (env : Env) (dest : String) (r : Json)
    (s : S) : (processRecord env dest r s).failed ≤ s.failed + 1 := by
  unfold processRecord
  split
  · exact Nat.le_refl _
  · rename_i evs hdec
    split
    · rename_i s1 u hrun
      have := runEvents_failed env dest evs s
      rw [hrun] at this
      dsimp only at this ⊢
      omega
    · rename_i s1 e hrun
      have := runEvents_failed env dest evs s
      rw [hrun] at this
      dsimp only at this ⊢
      omega

/-- A record whose event loop finished cleanly leaves the state of the loop
unchanged. -/
theorem processRecord_ok_run {env : Env} {dest : String} {r : Json}
    {evs : List Json} {s s1 : S} {u : Unit}
    (hdec : decodeRecord env r = .ok evs)
    (hrun : runEvents env dest evs s = (s1, .ok u)) :
    processRecord env dest r s = s1 := by
  unfold processRecord
  rw [hdec]
  dsimp only
  rw [hrun]

/-- A record whose event loop raised gets one `failed` increment on top of
the loop's exit state. -/
theorem processRecord_err_run {env : Env} {dest : String} {r : Json}
    {evs : List Json} {s s1 : S} {e : Err}
    (hdec : decodeRecord env r = .ok evs)
    (hrun : runEvents env dest evs s = (s1, .error e)) :
    processRecord env dest r s = { s1 with failed := s1.failed + 1 } := by
  unfold processRecord
  rw [hdec]
  dsimp only
  rw [hrun]

/-- Count accounting for one well-formed SQS record: the change in
`processed + failed` equals the number of write attempts appended, which is
at most the number of extracted events. -/
theorem processRecord_wf_counts {env : Env} {dest : String} {r : Json}
    {evs : List Json} (s : S) (hdec : decodeRecord env r = .ok evs)
    (hwf : ∀ ev ∈ evs, eventWF ev = true) :
    (processRecord env dest r s).processed + (processRecord env dest r s).failed
        + s.putCalls.length =
      s.processed + s.failed + (processRecord env dest r s).putCalls.length ∧
    (processRecord env dest r s).putCalls.length ≤
      s.putCalls.length + evs.length := by
  cases hrun : runEvents env dest evs s with
  | mk s1 res =>
    obtain ⟨f1, f2, f3, f4⟩ := runEvents_wf_counts hwf hrun
    cases res with
    | ok u =>
      rw [processRecord_ok_run hdec hrun]
      have := f3 u rfl
      omega
    | error e =>
      rw [processRecord_err_run hdec hrun]
      have := f4 e rfl
      dsimp only
      omega

/-- Batch-level count accounting over a well-formed suffix, for an arbitrary
entry state. -/
theorem foldl_wf_counts (env : Env) (dest : String) (recs : List Json)
    (s : S) (hwf : ∀ r ∈ recs, ∃ evs, decodeRecord env r = .ok evs ∧
      ∀ ev ∈ evs, eventWF ev = true) :
    (recs.foldl (fun s r => processRecord env dest r s) s).processed +
        (recs.foldl (fun s r => processRecord env dest r s) s).failed +
        s.putCalls.length =
      s.processed + s.failed +
        (recs.foldl (fun s r => processRecord env dest r s) s).putCalls.length ∧
    (recs.foldl (fun s r => processRecord env dest r s) s).putCalls.length ≤
      s.putCalls.length + totalEvents env recs := by
  induction recs generalizing s with
  | nil => exact ⟨rfl, Nat.le_add_right _ _⟩
  | cons r rest ih =>
    obtain ⟨evs, hdec, hevs⟩ := hwf r (List.mem_cons_self r rest)
    have hrest : ∀ q ∈ rest, ∃ evs, decodeRecord env q = .ok evs ∧
        ∀ ev ∈ evs, eventWF ev = true :=
      fun q hq => hwf q (List.mem_cons_of_mem r hq)
    obtain ⟨g1, g2⟩ := @processRecord_wf_counts env dest r evs s hdec hevs
    obtain ⟨h1, h2⟩ := ih (processRecord env dest r s) hrest
    have htot : totalEvents env (r :: rest) =
        evs.length + totalEvents env rest := by
      unfold totalEvents decodeLen
      rw [List.map_cons, List.sum_cons, hdec]
    rw [List.foldl_cons]
    constructor
    · omega
    · rw [htot]; omega

/-! ### Coherence of the write trace -/

theorem coreRecord_object_key (env : Env) (bj : Json) (rk : String)
    (oz et : Json) (t : Nat) :
    (coreRecord env bj rk oz et t).getField "object_key" =
      .ok (.str (unquote_plus rk)) := rfl

theorem coreRecord_processed_at (env : Env) (bj : Json) (rk : String)
    (oz et : Json) (t : Nat) :
    (coreRecord env bj rk oz et t).getField "processed_at" =
      .ok (.str (DateTime.isoformat (env.clock t))) := rfl

/-- The state after one event's core preserves the trace invariant. -/
theorem coreState_putInv {env : Env} {dest : String} {s : S}
    (bj : Json) (rk : String) (oz et : Json)
    (h : PutInv env dest s) :
    PutInv env dest (coreState env dest bj rk oz et s) := by
  obtain ⟨h1, h2⟩ := h
  constructor
  · intro pc hpc
    rw [coreState_putCalls] at hpc
    rcases List.mem_append.1 hpc with hold | hnew
    · obtain ⟨hc, hlt⟩ := h1 pc hold
      exact ⟨hc, by rw [coreState_tick]; omega⟩
    · rw [List.mem_singleton] at hnew
      subst hnew
      refine ⟨⟨rfl, rfl, unquote_plus rk, rfl,
        coreRecord_object_key .., coreRecord_processed_at ..⟩, ?_⟩
      rw [coreState_tick]
      dsimp only
      omega
  · rw [coreState_putCalls]
    rw [List.pairwise_append]
    refine ⟨h2, List.pairwise_singleton _ _, ?_⟩
    intro a ha b hb
    rw [List.mem_singleton] at hb
    subst hb
    have := (h1 a ha).2
    dsimp only
    omega

/-- One event step preserves the trace invariant (clock never moves
backwards, new write attempts are appended coherently). -/
theorem processS3Record_putInv {env : Env} {dest : String} {ev : Json}
    {s : S} (h : PutInv env dest s) :
    PutInv env dest (processS3Record env dest ev s).1 ∧
      s.tick ≤ (processS3Record env dest ev s).1.tick := by
  unfold processS3Record
  split
  · exact ⟨h, Nat.le_refl _⟩
  · rename_i bj h1
    split
    · exact ⟨h, Nat.le_refl _⟩
    · rename_i rk h2
      split
      · exact ⟨h, Nat.le_refl _⟩
      · rename_i oz h3
        split
        · exact ⟨h, Nat.le_refl _⟩
        · rename_i et h4
          rcases processEventCore_cases env dest bj rk oz et s with
            ⟨hc, _⟩ | ⟨e, hc, _⟩
          · rw [hc]
            have := coreState_putInv bj rk oz et h
            refine ⟨⟨?_, this.2⟩, ?_⟩
            · intro pc hpc
              exact this.1 pc hpc
            · dsimp only
              rw [coreState_tick]
              omega
          · rw [hc]
            refine ⟨coreState_putInv bj rk oz et h, ?_⟩
            dsimp only
            rw [coreState_tick]
            omega
    · exact ⟨h, Nat.le_refl _⟩

/-- The event loop preserves the trace invariant. -/
theorem runEvents_putInv {env : Env} {dest : String} (evs : List Json)
    {s : S} (h : PutInv env dest s) :
    PutInv env dest (runEvents env dest evs s).1 := by
  induction evs generalizing s with
  | nil => exact h
  | cons ev rest ih =>
    unfold runEvents
    cases hp : processS3Record env dest ev s with
    | mk s1 r =>
      have hinv : PutInv env dest s1 := by
        have := (@processS3Record_putInv env dest ev s h).1
        rw [hp] at this
        exact this
      cases r with
      | ok u => exact ih hinv
      | error e => exact hinv

/-- One SQS record preserves the trace invariant (`failed` is not part of
the invariant). -/
theorem processRecord_putInv {env : Env} {dest : String} (r : Json)
    {s : S} (h : PutInv env dest s) :
    PutInv env dest (processRecord env dest r s) := by
  unfold processRecord
  split
  · exact ⟨fun pc hpc => (h.1 pc hpc), h.2⟩
  · rename_i evs hdec
    cases hrun : runEvents env dest evs s with
    | mk s1 res =>
      have hinv : PutInv env dest s1 := by
        have := runEvents_putInv evs h
        rw [hrun] at this
        exact this
      cases res with
      | ok u => exact hinv
      | error e => exact ⟨fun pc hpc => (hinv.1 pc hpc), hinv.2⟩

/-- The whole batch satisfies the trace invariant. -/
theorem runBatch_putInv (env : Env) (dest : String) (recs : List Json) :
    PutInv env dest (runBatch env dest recs) := by
  unfold runBatch
  have : ∀ s : S, PutInv env dest s →
      PutInv env dest (recs.foldl (fun s r => processRecord env dest r s) s) := by
    induction recs with
    | nil => exact fun s hs => hs
    | cons r rest ih =>
      intro s hs
      rw [List.foldl_cons]
      exact ih _ (processRecord_putInv r hs)
  refine this S.init ⟨?_, List.Pairwise.nil⟩
  intro pc hpc
  cases hpc

/-- Two generated output keys with equal-length timestamp components and
distinct timestamps are distinct, whatever the embedded object keys are. -/
theorem mkResultKey_ts_inj {ts1 ts2 k1 k2 : String}
    (hlen : ts1.length = ts2.length)
    (h : mkResultKey ts1 k1 = mkResultKey ts2 k2) : ts1 = ts2 := by
  unfold mkResultKey at h
  have hdata := congrArg String.data h
  simp only [String.data_append, List.append_assoc] at hdata
  have h2 := List.append_cancel_left hdata
  have hlen' : ts1.data.length = ts2.data.length := hlen
  exact stringExt (List.append_inj h2 hlen').1
theorem processRecord_failed_ge (env : Env) (dest : String) (r : Json)
    (s : S) : s.failed ≤ (processRecord env dest r s).failed := by
  unfold processRecord
  split
  · exact Nat.le_succ _
  · rename_i evs hdec
    split
    · rename_i s1 u hrun
      have := runEvents_failed env dest evs s
      rw [hrun] at this
      dsimp only at this ⊢
      omega
    · rename_i s1 e hrun
      have := runEvents_failed env dest evs s
      rw [hrun] at this
      dsimp only at this ⊢
      omega

/-- The result record carries the substituted metadata whenever the lookup
raised. -/
theorem coreRecord_head_error {env : Env} {bj : Json} {rk : String}
    {oz et : Json} {t : Nat} {err : Err}
    (hh : callHeadObject env bj (unquote_plus rk) = .error err) :
    (coreRecord env bj rk oz et t).getField "content_type" =
        .ok (.str "unknown") ∧
      (coreRecord env bj rk oz et t).getField "last_modified" =
        .ok (.str "") := by
  unfold coreRecord
  rw [hh]
  exact ⟨rfl, rfl⟩

/-! ### Claim theorems -/

/-- C1: with the destination-bucket configuration present and the batch
given as a list of envelopes, `lambda_handler` never raises past its own
boundary: it always returns status code 200 with a body carrying the
aggregated processed/failed counts of the batch run; per-item failures
surface only inside those counts, never as an error result. -/
theorem c1_handler_always_succeeds (env : Env) (event : Json) (dest : String)
    (recs : List Json) (hd : env.destinationBucket = some dest)
    (hr : event.getField "Records" = .ok (.arr recs)) :
    lambda_handler env event =
      .ok ⟨200, .obj [("processed", .num (runBatch env dest recs).processed),
                      ("failed", .num (runBatch env dest recs).failed)]⟩ := by
  unfold lambda_handler
  rw [hd, hr]

/-- Witness for C1 at a concrete one-envelope batch. -/
theorem c1_witness :
    (envPutOk [sampleEvent "k"]).destinationBucket = some "dest" ∧
    Json.getField (.obj [("Records", .arr [sampleSqsRecord])]) "Records" =
      .ok (.arr [sampleSqsRecord]) ∧
    lambda_handler (envPutOk [sampleEvent "k"])
        (.obj [("Records", .arr [sampleSqsRecord])]) =
      .ok ⟨200,
        .obj [("processed",
               .num (runBatch (envPutOk [sampleEvent "k"]) "dest"
                  [sampleSqsRecord]).processed),
              ("failed",
               .num (runBatch (envPutOk [sampleEvent "k"]) "dest"
                  [sampleSqsRecord]).failed)]⟩ :=
  ⟨rfl, rfl,
   c1_handler_always_succeeds (envPutOk [sampleEvent "k"])
     (.obj [("Records", .arr [sampleSqsRecord])]) "dest" [sampleSqsRecord]
     rfl rfl⟩

/-- C2: on a well-formed batch, `processed + failed` equals the number of
attempted writes, which never exceeds the total number of storage events
extracted across all envelopes; in particular `processed + failed` is
bounded by that total, with equality whenever every extracted event's write
is attempted (i.e. unless a write failure skips the remaining events of its
envelope). -/
theorem c2_counts_bound (env : Env) (dest : String) (recs : List Json)
    (hwf : BatchWF env recs) :
    (runBatch env dest recs).processed + (runBatch env dest recs).failed =
        (runBatch env dest recs).putCalls.length ∧
      (runBatch env dest recs).putCalls.length ≤ totalEvents env recs ∧
      (runBatch env dest recs).processed + (runBatch env dest recs).failed ≤
        totalEvents env recs ∧
      ((runBatch env dest recs).putCalls.length = totalEvents env recs →
        (runBatch env dest recs).processed + (runBatch env dest recs).failed =
          totalEvents env recs) := by
  unfold runBatch
  obtain ⟨h1, h2⟩ := foldl_wf_counts env dest recs S.init hwf
  simp only [show S.init.processed = 0 from rfl, show S.init.failed = 0 from rfl,
    show S.init.putCalls = ([] : List PutCall) from rfl, List.length_nil]
    at h1 h2
  exact ⟨by omega, by omega, by omega, by omega⟩

/-- Witness for C2: one envelope holding two well-formed events. -/
theorem c2_witness :
    BatchWF (envPutOk [sampleEvent "a", sampleEvent "b"]) [sampleSqsRecord] ∧
    (runBatch (envPutOk [sampleEvent "a", sampleEvent "b"]) "dest"
          [sampleSqsRecord]).processed +
        (runBatch (envPutOk [sampleEvent "a", sampleEvent "b"]) "dest"
          [sampleSqsRecord]).failed ≤
      totalEvents (envPutOk [sampleEvent "a", sampleEvent "b"])
        [sampleSqsRecord] := by
  have hwf : BatchWF (envPutOk [sampleEvent "a", sampleEvent "b"])
      [sampleSqsRecord] := by
    intro r hr
    rw [List.mem_singleton] at hr
    subst hr
    exact ⟨[sampleEvent "a", sampleEvent "b"], rfl, by decide⟩
  exact ⟨hwf,
    (c2_counts_bound (envPutOk [sampleEvent "a", sampleEvent "b"]) "dest"
      [sampleSqsRecord] hwf).2.2.1⟩

/-- C4: when the metadata lookup of a (well-formed) storage event fails, the
event still gets exactly one write attempt, whose record carries content
type `"unknown"` and last-modified `""`, and the failure does not change the
failed count; the lookup itself was attempted exactly once. -/
theorem c4_lookup_failure_fallback (env : Env) (dest : String) (ev : Json)
    (s : S) (bj : Json) (rk : String) (oz et : Json) (err : Err)
    (h1 : bucketNameOf ev = .ok bj) (h2 : rawKeyOf ev = .ok (.str rk))
    (h3 : objectSizeOf ev = .ok oz) (h4 : eventTimeOf ev = .ok et)
    (hh : callHeadObject env bj (unquote_plus rk) = .error err) :
    ∃ pc, (processS3Record env dest ev s).1.putCalls = s.putCalls ++ [pc] ∧
      pc.record.getField "content_type" = .ok (.str "unknown") ∧
      pc.record.getField "last_modified" = .ok (.str "") ∧
      (processS3Record env dest ev s).1.failed = s.failed ∧
      (processS3Record env dest ev s).1.headCalls =
        s.headCalls ++ [(bj, unquote_plus rk)] := by
  rw [processS3Record_eq_core env dest s h1 h2 h3 h4]
  refine ⟨⟨dest, coreKey env rk s.tick, coreRecord env bj rk oz et s.tick,
    s.tick, s.tick + 1⟩, ?_⟩
  rcases processEventCore_cases env dest bj rk oz et s with
    ⟨hc, _⟩ | ⟨e, hc, _⟩ <;> rw [hc] <;>
    exact ⟨rfl, (coreRecord_head_error hh).1, (coreRecord_head_error hh).2,
      rfl, rfl⟩

/-- Witness for C4: in `envPutOk` every lookup fails. -/
theorem c4_witness :
    bucketNameOf (sampleEvent "k") = .ok (.str "srcbkt") ∧
    rawKeyOf (sampleEvent "k") = .ok (.str "k") ∧
    objectSizeOf (sampleEvent "k") = .ok (.num 1024) ∧
    eventTimeOf (sampleEvent "k") = .ok (.str "2024-01-01T00:00:00Z") ∧
    callHeadObject (envPutOk [sampleEvent "k"]) (.str "srcbkt")
      (unquote_plus "k") = .error Err.clientErr ∧
    (∃ pc, (processS3Record (envPutOk [sampleEvent "k"]) "dest"
          (sampleEvent "k") S.init).1.putCalls = S.init.putCalls ++ [pc] ∧
      pc.record.getField "content_type" = .ok (.str "unknown") ∧
      pc.record.getField "last_modified" = .ok (.str "") ∧
      (processS3Record (envPutOk [sampleEvent "k"]) "dest" (sampleEvent "k")
        S.init).1.failed = S.init.failed ∧
      (processS3Record (envPutOk [sampleEvent "k"]) "dest" (sampleEvent "k")
        S.init).1.headCalls =
        S.init.headCalls ++ [(.str "srcbkt", unquote_plus "k")]) :=
  ⟨rfl, rfl, rfl, rfl, rfl,
   c4_lookup_failure_fallback (envPutOk [sampleEvent "k"]) "dest"
     (sampleEvent "k") S.init (.str "srcbkt") "k" (.num 1024)
     (.str "2024-01-01T00:00:00Z") Err.clientErr rfl rfl rfl rfl rfl⟩

/-- C5: an envelope whose body fails to deserialize (at either layer, or
whose `Records` field is missing or not a list) increments the failed count
by exactly one, leaves the processed count and both traces unchanged (in
particular no output is written for it), and the batch loop continues with
the next envelope. -/
theorem c5_malformed_envelope (env : Env) (dest : String) (r : Json) (s : S)
    (err : Err) (h : decodeRecord env r = .error err) :
    processRecord env dest r s = { s with failed := s.failed + 1 } ∧
      (processRecord env dest r s).processed = s.processed ∧
      (processRecord env dest r s).putCalls = s.putCalls ∧
      (processRecord env dest r s).headCalls = s.headCalls := by
  have hmain : processRecord env dest r s = { s with failed := s.failed + 1 } := by
    unfold processRecord
    rw [h]
  rw [hmain]
  exact ⟨rfl, rfl, rfl, rfl⟩

/-- Witness for C5: a parser that rejects the body. -/
theorem c5_witness :
    decodeRecord envBadJson sampleSqsRecord = .error Err.valueErr ∧
    processRecord envBadJson "dest" sampleSqsRecord S.init =
      { S.init with failed := S.init.failed + 1 } :=
  ⟨rfl,
   (c5_malformed_envelope envBadJson "dest" sampleSqsRecord S.init
     Err.valueErr rfl).1⟩

/-- C10: the failed count is bounded by the number of envelopes in the batch
(each envelope increments it at most once, no matter how many events it
contains or how many errors occur inside it), and an empty batch returns
status 200 with both counts zero. -/
theorem c10_failed_bounded (env : Env) (dest : String) (recs : List Json)
    (hd : env.destinationBucket = some dest) :
    (runBatch env dest recs).failed ≤ recs.length ∧
      (∀ r s, (processRecord env dest r s).failed ≤ s.failed + 1) ∧
      lambda_handler env (.obj [("Records", .arr [])]) =
        .ok ⟨200, .obj [("processed", .num 0), ("failed", .num 0)]⟩ := by
  refine ⟨?_, fun r s => processRecord_failed_le env dest r s, ?_⟩
  · unfold runBatch
    have key : ∀ s : S,
        (recs.foldl (fun s r => processRecord env dest r s) s).failed ≤
          s.failed + recs.length := by
      induction recs with
      | nil => intro s; exact Nat.le_add_right _ _
      | cons r rest ih =>
        intro s
        rw [List.foldl_cons]
        have g1 := processRecord_failed_le env dest r s
        have g2 := ih (processRecord env dest r s)
        simp only [List.length_cons]
        omega
    have := key S.init
    simpa [S.init] using this
  · unfold lambda_handler
    rw [hd]
    rfl

/-- Witness for C10. -/
theorem c10_witness :
    (envPutOk []).destinationBucket = some "dest" ∧
    (runBatch (envPutOk []) "dest" [sampleSqsRecord]).failed ≤
      [sampleSqsRecord].length ∧
    lambda_handler (envPutOk []) (.obj [("Records", .arr [])]) =
      .ok ⟨200, .obj [("processed", .num 0), ("failed", .num 0)]⟩ := by
  have h := c10_failed_bounded (envPutOk []) "dest" [sampleSqsRecord] rfl
  exact ⟨rfl, h.1, h.2.2⟩

/-- C3 counterexample: under failing writes, one envelope decodes to two
well-formed (successfully unwrapped) storage events, yet only one fetch
attempt and one write attempt happen in the whole run — the second event
gets neither, because the first event's write failure aborts the per-envelope
loop.  This refutes the claim that every successfully unwrapped event gets
exactly one attempted fetch and one attempted write. -/
theorem c3_counterexample :
    decodeRecord (envPutFail [sampleEvent "a", sampleEvent "b"])
        sampleSqsRecord = .ok [sampleEvent "a", sampleEvent "b"] ∧
      eventWF (sampleEvent "a") = true ∧ eventWF (sampleEvent "b") = true ∧
      (runBatch (envPutFail [sampleEvent "a", sampleEvent "b"]) "dest"
        [sampleSqsRecord]).headCalls.length = 1 ∧
      (runBatch (envPutFail [sampleEvent "a", sampleEvent "b"]) "dest"
        [sampleSqsRecord]).putCalls.length = 1 :=
  ⟨rfl, rfl, rfl, rfl, rfl⟩

/-- C3 as amended: every successfully unwrapped storage event that the
per-envelope loop actually reaches (all earlier events of its envelope
having been processed without exception) gets exactly one attempted fetch
and exactly one attempted write, regardless of the fetch's outcome; events
after an envelope-aborting exception are skipped. -/
theorem c3_reached_event_one_fetch_one_write (env : Env) (dest : String)
    (pre post : List Json) (ev : Json) (s s1 : S)
    (hwf : eventWF ev = true)
    (hpre : runEvents env dest pre s = (s1, .ok ())) :
    (processS3Record env dest ev s1).1.headCalls.length =
        s1.headCalls.length + 1 ∧
      (processS3Record env dest ev s1).1.putCalls.length =
        s1.putCalls.length + 1 ∧
      runEvents env dest (pre ++ ev :: post) s =
        (match processS3Record env dest ev s1 with
         | (s2, .ok _) => runEvents env dest post s2
         | (s2, .error e) => (s2, .error e)) := by
  obtain ⟨bj, rk, oz, et, h1, h2, h3, h4⟩ := eventWF_fields hwf
  have hcore := processS3Record_eq_core env dest s1 h1 h2 h3 h4
  refine ⟨?_, ?_, ?_⟩
  · rw [hcore]
    rcases processEventCore_cases env dest bj rk oz et s1 with
      ⟨hc, _⟩ | ⟨e, hc, _⟩ <;> rw [hc] <;> simp [coreState]
  · rw [hcore]
    rcases processEventCore_cases env dest bj rk oz et s1 with
      ⟨hc, _⟩ | ⟨e, hc, _⟩ <;> rw [hc] <;> simp [coreState]
  · rw [runEvents_append, hpre]
    rfl

/-- Witness for the amended C3. -/
theorem c3_witness :
    eventWF (sampleEvent "b") = true ∧
    runEvents (envPutOk [sampleEvent "a", sampleEvent "b"]) "dest"
        [sampleEvent "a"] S.init =
      ((runEvents (envPutOk [sampleEvent "a", sampleEvent "b"]) "dest"
          [sampleEvent "a"] S.init).1, .ok ()) ∧
    (processS3Record (envPutOk [sampleEvent "a", sampleEvent "b"]) "dest"
        (sampleEvent "b")
        (runEvents (envPutOk [sampleEvent "a", sampleEvent "b"]) "dest"
          [sampleEvent "a"] S.init).1).1.headCalls.length =
      (runEvents (envPutOk [sampleEvent "a", sampleEvent "b"]) "dest"
          [sampleEvent "a"] S.init).1.headCalls.length + 1 := by
  have h := c3_reached_event_one_fetch_one_write
    (envPutOk [sampleEvent "a", sampleEvent "b"]) "dest"
    [sampleEvent "a"] [] (sampleEvent "b") S.init
    (runEvents (envPutOk [sampleEvent "a", sampleEvent "b"]) "dest"
      [sampleEvent "a"] S.init).1 rfl rfl
  exact ⟨rfl, rfl, h.1⟩

/-- C6: when processing an event of a decoded envelope raises (with
well-formed events, the only raising step is the output write), the
exception is caught at the envelope level: the whole envelope gets exactly
one `failed` increment, the events after the failing one are skipped (the
final state is exactly the failure state plus the increment — no further
fetch or write attempts), and the writes already completed earlier in the
envelope stay counted in `processed`. -/
theorem c6_write_failure_aborts_envelope (env : Env) (dest : String)
    (r : Json) (evs pre post : List Json) (ev : Json) (s s1 s2 : S)
    (err : Err)
    (hdec : decodeRecord env r = .ok evs)
    (hsplit : evs = pre ++ ev :: post)
    (hwfev : eventWF ev = true)
    (hpre : runEvents env dest pre s = (s1, .ok ()))
    (hev : processS3Record env dest ev s1 = (s2, .error err)) :
    processRecord env dest r s = { s2 with failed := s2.failed + 1 } ∧
      s1.processed = s.processed + pre.length ∧
      s2.processed = s1.processed ∧
      s2.failed = s.failed ∧
      s2.headCalls.length = s.headCalls.length + (pre.length + 1) ∧
      s2.putCalls.length = s.putCalls.length + (pre.length + 1) := by
  have hrun : runEvents env dest evs s = (s2, .error err) := by
    rw [hsplit, runEvents_append, hpre]
    show runEvents env dest (ev :: post) s1 = _
    unfold runEvents
    rw [hev]
  obtain ⟨bj, rk, oz, et, h1, h2, h3, h4⟩ := eventWF_fields hwfev
  have hcore := processS3Record_eq_core env dest s1 h1 h2 h3 h4
  rw [hcore] at hev
  have hstate : s2 = coreState env dest bj rk oz et s1 := by
    rcases processEventCore_cases env dest bj rk oz et s1 with
      ⟨hc, _⟩ | ⟨e, hc, _⟩
    · rw [hc] at hev
      simp at hev
    · rw [hc] at hev
      injection hev with ha hb
      exact ha.symm
  obtain ⟨a1, a2, a3, a4⟩ := runEvents_ok hpre
  refine ⟨processRecord_err_run hdec hrun, a1, ?_, ?_, ?_, ?_⟩
  · rw [hstate, coreState_processed]
  · rw [hstate, coreState_failed, a2]
  · rw [hstate, coreState_headCalls]
    simp only [List.length_append, List.length_cons, List.length_nil]
    omega
  · rw [hstate, coreState_putCalls]
    simp only [List.length_append, List.length_cons, List.length_nil]
    omega

/-- Witness for C6: the write of the second of two events fails. -/
theorem c6_witness :
    decodeRecord (envFailSecond [sampleEvent "a", sampleEvent "b"])
        sampleSqsRecord = .ok [sampleEvent "a", sampleEvent "b"] ∧
      eventWF (sampleEvent "b") = true ∧
      runEvents (envFailSecond [sampleEvent "a", sampleEvent "b"]) "dest"
          [sampleEvent "a"] S.init =
        ((runEvents (envFailSecond [sampleEvent "a", sampleEvent "b"]) "dest"
            [sampleEvent "a"] S.init).1, .ok ()) ∧
      processS3Record (envFailSecond [sampleEvent "a", sampleEvent "b"])
          "dest" (sampleEvent "b")
          (runEvents (envFailSecond [sampleEvent "a", sampleEvent "b"])
            "dest" [sampleEvent "a"] S.init).1 =
        ((processS3Record (envFailSecond [sampleEvent "a", sampleEvent "b"])
            "dest" (sampleEvent "b")
            (runEvents (envFailSecond [sampleEvent "a", sampleEvent "b"])
              "dest" [sampleEvent "a"] S.init).1).1,
         .error Err.clientErr) ∧
      processRecord (envFailSecond [sampleEvent "a", sampleEvent "b"]) "dest"
          sampleSqsRecord S.init =
        { (processS3Record (envFailSecond [sampleEvent "a", sampleEvent "b"])
            "dest" (sampleEvent "b")
            (runEvents (envFailSecond [sampleEvent "a", sampleEvent "b"])
              "dest" [sampleEvent "a"] S.init).1).1 with
          failed := (processS3Record
            (envFailSecond [sampleEvent "a", sampleEvent "b"]) "dest"
            (sampleEvent "b")
            (runEvents (envFailSecond [sampleEvent "a", sampleEvent "b"])
              "dest" [sampleEvent "a"] S.init).1).1.failed + 1 } := by
  have h := c6_write_failure_aborts_envelope
    (envFailSecond [sampleEvent "a", sampleEvent "b"]) "dest" sampleSqsRecord
    [sampleEvent "a", sampleEvent "b"] [sampleEvent "a"] [] (sampleEvent "b")
    S.init
    (runEvents (envFailSecond [sampleEvent "a", sampleEvent "b"]) "dest"
      [sampleEvent "a"] S.init).1
    (processS3Record (envFailSecond [sampleEvent "a", sampleEvent "b"])
      "dest" (sampleEvent "b")
      (runEvents (envFailSecond [sampleEvent "a", sampleEvent "b"]) "dest"
        [sampleEvent "a"] S.init).1).1
    Err.clientErr rfl rfl rfl rfl rfl
  exact ⟨rfl, rfl, rfl, rfl, h.1⟩

/-- C9: for every storage event, the raw object key is decoded with
`unquote_plus` and it is this decoded key that is used as the metadata
lookup key, stored in the result record's `object_key` field, and embedded
(with `/` replaced by `_`) in the generated output key. -/
theorem c9_decoded_key_used (env : Env) (dest : String) (ev : Json) (s : S)
    (bj : Json) (rk : String) (oz et : Json)
    (h1 : bucketNameOf ev = .ok bj) (h2 : rawKeyOf ev = .ok (.str rk))
    (h3 : objectSizeOf ev = .ok oz) (h4 : eventTimeOf ev = .ok et) :
    (processS3Record env dest ev s).1.headCalls =
        s.headCalls ++ [(bj, unquote_plus rk)] ∧
      ∃ pc, (processS3Record env dest ev s).1.putCalls = s.putCalls ++ [pc] ∧
        pc.record.getField "object_key" = .ok (.str (unquote_plus rk)) ∧
        pc.key = "processed/" ++
          DateTime.strftimeKey (env.clock (s.tick + 1)) ++ "-" ++
          underscoreSlashes (unquote_plus rk) ++ ".json" := by
  rw [processS3Record_eq_core env dest s h1 h2 h3 h4]
  rcases processEventCore_cases env dest bj rk oz et s with
    ⟨hc, _⟩ | ⟨e, hc, _⟩ <;> rw [hc] <;>
    exact ⟨rfl, ⟨dest, coreKey env rk s.tick,
      coreRecord env bj rk oz et s.tick, s.tick, s.tick + 1⟩, rfl,
      coreRecord_object_key .., rfl⟩

/-- Witness for C9, with a key that exercises both the percent and the plus
decodings and contains a path separator. -/
theorem c9_witness :
    unquote_plus "pics%2Fcat+1.png" = "pics/cat 1.png" ∧
    underscoreSlashes (unquote_plus "pics%2Fcat+1.png") = "pics_cat 1.png" ∧
    bucketNameOf (sampleEvent "pics%2Fcat+1.png") = .ok (.str "srcbkt") ∧
    rawKeyOf (sampleEvent "pics%2Fcat+1.png") =
      .ok (.str "pics%2Fcat+1.png") ∧
    ((processS3Record (envPutOk [sampleEvent "pics%2Fcat+1.png"]) "dest"
        (sampleEvent "pics%2Fcat+1.png") S.init).1.headCalls =
      S.init.headCalls ++ [(.str "srcbkt", unquote_plus "pics%2Fcat+1.png")] ∧
      ∃ pc, (processS3Record (envPutOk [sampleEvent "pics%2Fcat+1.png"])
          "dest" (sampleEvent "pics%2Fcat+1.png") S.init).1.putCalls =
          S.init.putCalls ++ [pc] ∧
        pc.record.getField "object_key" =
          .ok (.str (unquote_plus "pics%2Fcat+1.png")) ∧
        pc.key = "processed/" ++
          DateTime.strftimeKey
            ((envPutOk [sampleEvent "pics%2Fcat+1.png"]).clock
              (S.init.tick + 1)) ++ "-" ++
          underscoreSlashes (unquote_plus "pics%2Fcat+1.png") ++ ".json") := by
  refine ⟨by decide, by decide, rfl, rfl, ?_⟩
  exact c9_decoded_key_used (envPutOk [sampleEvent "pics%2Fcat+1.png"])
    "dest" (sampleEvent "pics%2Fcat+1.png") S.init (.str "srcbkt")
    "pics%2Fcat+1.png" (.num 1024) (.str "2024-01-01T00:00:00Z")
    rfl rfl rfl rfl

/-- C7 counterexample: the code reads the wall clock anew for every key; if
two key-generation reads fall in the same microsecond (frozen clock), two
distinct writes for the same source key get the *same* output key, so keys
are not unconditionally unique within an invocation. -/
theorem c7_counterexample :
    ((runBatch (envConstClock [sampleEvent "k", sampleEvent "k"]) "dest"
        [sampleSqsRecord]).putCalls.map fun pc => pc.key) =
      ["processed/20240101-000000-000000-k.json",
       "processed/20240101-000000-000000-k.json"] ∧
    ¬ (runBatch (envConstClock [sampleEvent "k", sampleEvent "k"]) "dest"
        [sampleSqsRecord]).putCalls.Pairwise (fun a b => a.key ≠ b.key) :=
  ⟨rfl, by decide⟩

/-- C7 as amended: any two output keys generated for distinct result-record
writes of one invocation are distinct *provided* the clock readings used for
key generation (all below the final clock position) format to pairwise
distinct, equal-length timestamp strings — i.e. the keys differ by their
microsecond-precision timestamp component whenever the clock does not
produce the same formatted timestamp twice. -/
theorem c7_keys_distinct (env : Env) (dest : String) (recs : List Json)
    (hlen : ∀ t1, t1 < (runBatch env dest recs).tick →
      ∀ t2, t2 < (runBatch env dest recs).tick →
      (DateTime.strftimeKey (env.clock t1)).length =
        (DateTime.strftimeKey (env.clock t2)).length)
    (hclk : ∀ t1, t1 < (runBatch env dest recs).tick →
      ∀ t2, t2 < (runBatch env dest recs).tick → t1 ≠ t2 →
      DateTime.strftimeKey (env.clock t1) ≠
        DateTime.strftimeKey (env.clock t2)) :
    (runBatch env dest recs).putCalls.Pairwise (fun a b => a.key ≠ b.key) := by
  obtain ⟨hmem, hpw⟩ := runBatch_putInv env dest recs
  refine List.Pairwise.imp_of_mem ?_ hpw
  intro a b ha hb hlt heq
  obtain ⟨⟨_, _, dka, hka, _, _⟩, hta⟩ := hmem a ha
  obtain ⟨⟨_, _, dkb, hkb, _, _⟩, htb⟩ := hmem b hb
  rw [hka, hkb] at heq
  have hts := mkResultKey_ts_inj
    (hlen a.genTick hta b.genTick htb) heq
  exact hclk a.genTick hta b.genTick htb (Nat.ne_of_lt hlt) hts

/-- Witness for the amended C7: with the microsecond-advancing clock the two
writes for the same source key get distinct keys. -/
theorem c7_witness :
    (∀ t1, t1 < (runBatch (envPutOk [sampleEvent "k", sampleEvent "k"])
        "dest" [sampleSqsRecord]).tick →
      ∀ t2, t2 < (runBatch (envPutOk [sampleEvent "k", sampleEvent "k"])
        "dest" [sampleSqsRecord]).tick →
      (DateTime.strftimeKey
        ((envPutOk [sampleEvent "k", sampleEvent "k"]).clock t1)).length =
        (DateTime.strftimeKey
          ((envPutOk [sampleEvent "k", sampleEvent "k"]).clock t2)).length) ∧
    (∀ t1, t1 < (runBatch (envPutOk [sampleEvent "k", sampleEvent "k"])
        "dest" [sampleSqsRecord]).tick →
      ∀ t2, t2 < (runBatch (envPutOk [sampleEvent "k", sampleEvent "k"])
        "dest" [sampleSqsRecord]).tick → t1 ≠ t2 →
      DateTime.strftimeKey
          ((envPutOk [sampleEvent "k", sampleEvent "k"]).clock t1) ≠
        DateTime.strftimeKey
          ((envPutOk [sampleEvent "k", sampleEvent "k"]).clock t2)) ∧
    (runBatch (envPutOk [sampleEvent "k", sampleEvent "k"]) "dest"
      [sampleSqsRecord]).putCalls.Pairwise (fun a b => a.key ≠ b.key) :=
  ⟨by decide, by decide,
   c7_keys_distinct (envPutOk [sampleEvent "k", sampleEvent "k"]) "dest"
     [sampleSqsRecord] (by decide) (by decide)⟩

/-- C8 counterexample: the timestamp embedded in the output key is *not* the
result record's processing timestamp: `processed_at` comes from one
`utcnow()` reading and the key from a later one.  With a clock advancing one
microsecond per reading, the record's processing timestamp is the instant
with microsecond 0, whose claimed key formatting would end in `000000`, but
the actual key ends in `000001`. -/
theorem c8_counterexample :
    ((runBatch (envPutOk [sampleEvent "k"]) "dest"
        [sampleSqsRecord]).putCalls.map fun pc => pc.key) =
      ["processed/20240101-000000-000001-k.json"] ∧
    ((runBatch (envPutOk [sampleEvent "k"]) "dest"
        [sampleSqsRecord]).putCalls.map fun pc =>
          pc.record.getField "processed_at") =
      [.ok (.str (DateTime.isoformat ⟨2024, 1, 1, 0, 0, 0, 0⟩))] ∧
    "processed/20240101-000000-000001-k.json" ≠
      "processed/" ++ DateTime.strftimeKey ⟨2024, 1, 1, 0, 0, 0, 0⟩ ++ "-" ++
        underscoreSlashes "k" ++ ".json" :=
  ⟨rfl, rfl, by decide⟩

/-- C8 as amended: every written record's output key is exactly the fixed
prefix `processed/`, then the `<YYYYMMDD>-<HHMMSS>-<microseconds>` formatting
of a clock reading taken at key-generation time — the reading *after* the
one stored in the record's `processed_at` field, not that field's instant —
then `-`, then the decoded object key (also stored in the record) with every
`/` replaced by `_`, then `.json`; the destination bucket is the configured
one. -/
theorem c8_key_format (env : Env) (dest : String) (recs : List Json)
    (pc : PutCall) (hmem : pc ∈ (runBatch env dest recs).putCalls) :
    ∃ dk, pc.key = "processed/" ++
        DateTime.strftimeKey (env.clock pc.genTick) ++ "-" ++
        underscoreSlashes dk ++ ".json" ∧
      pc.genTick = pc.recTick + 1 ∧
      pc.record.getField "object_key" = .ok (.str dk) ∧
      pc.record.getField "processed_at" =
        .ok (.str (DateTime.isoformat (env.clock pc.recTick))) ∧
      pc.bucket = dest := by
  obtain ⟨⟨hb, hg, dk, hk, ho, hp⟩, _⟩ :=
    (runBatch_putInv env dest recs).1 pc hmem
  exact ⟨dk, hk, hg, ho, hp, hb⟩

/-- Witness for the amended C8 at the one-event run. -/
theorem c8_witness :
    (⟨"dest", "processed/20240101-000000-000001-k.json",
       mkResult (.str "srcbkt") "k" (.num 1024) "unknown"
         (.str "2024-01-01T00:00:00Z") "" "2024-01-01T00:00:00",
       0, 1⟩ : PutCall) ∈
      (runBatch (envPutOk [sampleEvent "k"]) "dest"
        [sampleSqsRecord]).putCalls ∧
    (∃ dk, ("processed/20240101-000000-000001-k.json" : String) =
        "processed/" ++
          DateTime.strftimeKey ((envPutOk [sampleEvent "k"]).clock 1) ++
          "-" ++ underscoreSlashes dk ++ ".json" ∧
      (1 : Nat) = 0 + 1 ∧
      (mkResult (.str "srcbkt") "k" (.num 1024) "unknown"
        (.str "2024-01-01T00:00:00Z") ""
        "2024-01-01T00:00:00").getField "object_key" = .ok (.str dk) ∧
      (mkResult (.str "srcbkt") "k" (.num 1024) "unknown"
        (.str "2024-01-01T00:00:00Z") ""
        "2024-01-01T00:00:00").getField "processed_at" =
        .ok (.str (DateTime.isoformat
          ((envPutOk [sampleEvent "k"]).clock 0))) ∧
      ("dest" : String) = "dest") := by
  have hm : (⟨"dest", "processed/20240101-000000-000001-k.json",
      mkResult (.str "srcbkt") "k" (.num 1024) "unknown"
        (.str "2024-01-01T00:00:00Z") "" "2024-01-01T00:00:00",
      0, 1⟩ : PutCall) ∈
      (runBatch (envPutOk [sampleEvent "k"]) "dest"
        [sampleSqsRecord]).putCalls := List.Mem.head _
  exact ⟨hm, c8_key_format (envPutOk [sampleEvent "k"]) "dest"
    [sampleSqsRecord] _ hm⟩

end ScanMeta
